import Mathlib

/-!
Verification of `http_smuggle.py` (an HTTP request-smuggling differential
probe).  Python strings are modelled as `List Char` (one element per code
point), Python `bytes` as `List Nat` (one element per byte, each < 256),
and Python `float` response times as rationals.  All definitions are
executable and kernel-reducible so that concrete runs can be settled by
`decide`.
-/

namespace HttpSmuggle

deriving instance DecidableEq for Except

/-- A Python `str`, modelled as its list of code points. -/
abbrev PyStr := List Char

/-- Code points of a Lean string literal, used to write Python string
literals of the model. -/
def pstr (s : String) : PyStr := s.data

/-- ASCII lowercasing of one character, modelling Python `str.lower` on the
ASCII range (the only range exercised by this program's header names and
values). -/
def lowerChar (c : Char) : Char :=
  if 'A' ≤ c ∧ c ≤ 'Z' then Char.ofNat (c.toNat + 32) else c

/-- Python `s.lower()`. -/
def pyLower (s : PyStr) : PyStr := s.map lowerChar

/-- Whether the pattern `p` starts the list `s`. -/
def listStartsWith : List Char → List Char → Bool
  | _, [] => true
  | [], _ :: _ => false
  | a :: s, b :: p => a = b && listStartsWith s p

/-- Whether `p` occurs as a contiguous substring of `s`; models Python's
substring test `p in s`. -/
def listHasSub : List Char → List Char → Bool
  | [], p => p.isEmpty
  | a :: s, p => listStartsWith (a :: s) p || listHasSub s p

/-- Python `response.split('\r\n')`: split on every occurrence of the
two-character separator CRLF, keeping empty pieces, leftmost-first. -/
def splitCRLF : List Char → List PyStr
  | [] => [[]]
  | '\r' :: '\n' :: rest => [] :: splitCRLF rest
  | c :: rest =>
    match splitCRLF rest with
    | [] => [[c]]
    | h :: t => (c :: h) :: t

/-- Python `line.split(': ', 1)` restricted to the case the program uses:
returns `some (before, after)` for the first occurrence of the colon-space
separator, `none` when `': ' in line` is false. -/
def splitColonSpaceOnce : List Char → Option (PyStr × PyStr)
  | [] => none
  | ':' :: ' ' :: rest => some ([], rest)
  | c :: rest => (splitColonSpaceOnce rest).map (fun p => (c :: p.1, p.2))

/-- One dictionary entry write `d[k] = v` of a Python `dict` modelled as an
insertion-ordered association list: an existing key is updated in place,
a new key is appended. -/
def dictSet (m : List (PyStr × PyStr)) (k v : PyStr) : List (PyStr × PyStr) :=
  if m.any (fun p => p.1 = k) then
    m.map (fun p => if p.1 = k then (k, v) else p)
  else m ++ [(k, v)]

/-- Python `m.get(k, d)`. -/
def dictGet (m : List (PyStr × PyStr)) (k d : PyStr) : PyStr :=
  match m.find? (fun p => p.1 = k) with
  | some p => p.2
  | none => d

/-- The `(lowercased name, value)` pair contributed by one response line,
`none` when the line has no colon-space separator (lines 58-59 of
`http_smuggle.py`). -/
def linePair (line : PyStr) : Option (PyStr × PyStr) :=
  (splitColonSpaceOnce line).map (fun p => (pyLower p.1, p.2))

/-- Processing of one response line into the headers dict (lines 57-60 of
`http_smuggle.py`). -/
def parseLine (headers : List (PyStr × PyStr)) (line : PyStr) :
    List (PyStr × PyStr) :=
  match linePair line with
  | some p => dictSet headers p.1 p.2
  | none => headers

/-- The response-header extraction loop of `http_smuggle.py` lines 56-60:
split the decoded response on CRLF and fold every colon-space line into
the dict. -/
def parseHeaders (response : PyStr) : List (PyStr × PyStr) :=
  (splitCRLF response).foldl parseLine []

/-- Decimal digit character. -/
def digitChar (n : Nat) : Char := Char.ofNat (48 + n)

/-- Decimal digits of a natural number (fuel-indexed helper). -/
def natDigitsAux : Nat → Nat → PyStr
  | 0, _ => []
  | fuel + 1, n =>
    if n < 10 then [digitChar n] else natDigitsAux fuel (n / 10) ++ [digitChar (n % 10)]

/-- Decimal rendering of a natural number. -/
def natToStr (n : Nat) : PyStr := natDigitsAux (n + 1) n

/-- Two-decimal rendering of the nonnegative fraction `n / d` (`d > 0`),
rounding to the nearest hundredth (ties up).  Models CPython's
`f"\x7bx:.2f\x7d"` on nonnegative values away from representation-level
ties. -/
def fmt2Frac (n d : Nat) : PyStr :=
  let cents := (200 * n + d) / (2 * d)
  natToStr (cents / 100) ++ pstr "." ++
    (if cents % 100 < 10 then pstr "0" else []) ++ natToStr (cents % 100)

/-- Python `f"\x7bq:.2f\x7d"`, with the float modelled as a rational; computed
from numerator and denominator so that it is kernel-evaluable. -/
def pyFormat2f (q : ℚ) : PyStr :=
  (if q.num < 0 then pstr "-" else []) ++ fmt2Frac q.num.natAbs q.den

/-- Python `f"\x7babs(a - b):.2f\x7d"` on two rationals, computed without rational
normalization: `|a - b| = |a.num * b.den - b.num * a.den| / (a.den * b.den)`
and `fmt2Frac` is invariant under non-reduced representations. -/
def fmtAbsDiff2 (a b : ℚ) : PyStr :=
  fmt2Frac (a.num * (b.den : Int) - b.num * (a.den : Int)).natAbs (a.den * b.den)

/-! ### Request builder (lines 14-36 of `http_smuggle.py`) -/

/-- One test case: a name and the request text (encoded to bytes at send
time). -/
structure TestCase where
  name : PyStr
  request : PyStr
deriving DecidableEq

/-- The `"Both Headers"` request string (lines 17-24). -/
def bothHeadersRequest (host : PyStr) : PyStr :=
  pstr "POST / HTTP/1.1\r\n" ++
  (pstr "Host: " ++ host ++ pstr "\r\n") ++
  pstr "Content-Length: 5\r\n" ++
  pstr "Transfer-Encoding: chunked\r\n" ++
  pstr "Connection: keep-alive\r\n\r\n" ++
  pstr "0\r\n\r\n"

/-- The `"TE Only"` request string (lines 28-34). -/
def teOnlyRequest (host : PyStr) : PyStr :=
  pstr "POST / HTTP/1.1\r\n" ++
  (pstr "Host: " ++ host ++ pstr "\r\n") ++
  pstr "Transfer-Encoding: chunked\r\n" ++
  pstr "Connection: keep-alive\r\n\r\n" ++
  pstr "0\r\n\r\n"

/-- The fixed ordered list of test cases built for a host (lines 14-36). -/
def test_cases (host : PyStr) : List TestCase :=
  [⟨pstr "Both Headers", bothHeadersRequest host⟩,
   ⟨pstr "TE Only", teOnlyRequest host⟩]

/-! ### UTF-8 codec (`request.encode()` line 49, `recv.decode('utf-8',
errors='ignore')` line 52) -/

/-- UTF-8 encoding of one code point. -/
def encodeChar (c : Char) : List Nat :=
  let n := c.toNat
  if n < 0x80 then [n]
  else if n < 0x800 then [0xC0 + n / 64, 0x80 + n % 64]
  else if n < 0x10000 then
    [0xE0 + n / 4096, 0x80 + n / 64 % 64, 0x80 + n % 64]
  else
    [0xF0 + n / 262144, 0x80 + n / 4096 % 64, 0x80 + n / 64 % 64, 0x80 + n % 64]

/-- Python `s.encode()`: UTF-8 bytes of a string. -/
def utf8Encode (s : PyStr) : List Nat := (s.map encodeChar).flatten

/-- Is `b` a UTF-8 continuation byte (`0x80..0xBF`)? -/
def isCont (b : Nat) : Bool := 0x80 ≤ b && b ≤ 0xBF

/-- Lower bound for the second byte of a three-byte sequence headed by
`b` (RFC 3629 / CPython: `0xE0` requires `0xA0..`). -/
def lo3 (b : Nat) : Nat := if b = 0xE0 then 0xA0 else 0x80

/-- Upper bound for the second byte of a three-byte sequence headed by
`b` (`0xED` admits only `..0x9F`, excluding surrogates). -/
def hi3 (b : Nat) : Nat := if b = 0xED then 0x9F else 0xBF

/-- Lower bound for the second byte of a four-byte sequence headed by `b`. -/
def lo4 (b : Nat) : Nat := if b = 0xF0 then 0x90 else 0x80

/-- Upper bound for the second byte of a four-byte sequence headed by `b`
(`0xF4` admits only `..0x8F`, capping at U+10FFFF). -/
def hi4 (b : Nat) : Nat := if b = 0xF4 then 0x8F else 0xBF

/-- CPython's incremental UTF-8 decoder: each list element is one decoded
scalar (`some c`) or one invalid maximal subpart (`none`).  An error
handler then maps `none` to its substitution (empty for `'ignore'`, U+FFFD
for `'replace'`). -/
def decodeUtf8Core : List Nat → List (Option Char)
  | [] => []
  | b :: rest =>
    if b < 0x80 then some (Char.ofNat b) :: decodeUtf8Core rest
    else if 0xC2 ≤ b && b ≤ 0xDF then
      match rest with
      | [] => [none]
      | c2 :: rest2 =>
        if isCont c2 then
          some (Char.ofNat ((b - 0xC0) * 64 + (c2 - 0x80))) :: decodeUtf8Core rest2
        else none :: decodeUtf8Core (c2 :: rest2)
    else if 0xE0 ≤ b && b ≤ 0xEF then
      match rest with
      | [] => [none]
      | c2 :: rest2 =>
        if lo3 b ≤ c2 && c2 ≤ hi3 b then
          match rest2 with
          | [] => [none]
          | c3 :: rest3 =>
            if isCont c3 then
              some (Char.ofNat ((b - 0xE0) * 4096 + (c2 - 0x80) * 64 + (c3 - 0x80))) ::
                decodeUtf8Core rest3
            else none :: decodeUtf8Core (c3 :: rest3)
        else none :: decodeUtf8Core (c2 :: rest2)
    else if 0xF0 ≤ b && b ≤ 0xF4 then
      match rest with
      | [] => [none]
      | c2 :: rest2 =>
        if lo4 b ≤ c2 && c2 ≤ hi4 b then
          match rest2 with
          | [] => [none]
          | c3 :: rest3 =>
            if isCont c3 then
              match rest3 with
              | [] => [none]
              | c4 :: rest4 =>
                if isCont c4 then
                  some (Char.ofNat ((b - 0xF0) * 262144 + (c2 - 0x80) * 4096 +
                      (c3 - 0x80) * 64 + (c4 - 0x80))) :: decodeUtf8Core rest4
                else none :: decodeUtf8Core (c4 :: rest4)
            else none :: decodeUtf8Core (c3 :: rest3)
        else none :: decodeUtf8Core (c2 :: rest2)
    else none :: decodeUtf8Core rest

/-- Python `bs.decode('utf-8', errors='ignore')`: the `'ignore'` handler
substitutes the empty string for each invalid subpart. -/
def pyDecodeIgnore (bs : List Nat) : PyStr :=
  (decodeUtf8Core bs).filterMap id

/-- Python `bs.decode('utf-8', errors='replace')`: the `'replace'` handler
substitutes U+FFFD for each invalid subpart. -/
def pyDecodeReplace (bs : List Nat) : PyStr :=
  (decodeUtf8Core bs).map (fun o => o.getD (Char.ofNat 0xFFFD))

/-! ### Probe loop (lines 38-75 of `http_smuggle.py`) -/

/-- One result dict appended at lines 62-67. -/
structure Observation where
  test_name : PyStr
  response_time : ℚ
  connection : PyStr
  content_length : PyStr
deriving DecidableEq

/-- Outcome of the transport step (connect/send/recv, lines 43-53) for
one test case: the raw received bytes and elapsed seconds, or the message
of the raised exception. -/
inductive ProbeOutcome where
  | ok (responseBytes : List Nat) (elapsed : ℚ)
  | err (msg : PyStr)
deriving DecidableEq

/-- Did the transport step complete without raising? -/
def ProbeOutcome.isOk : ProbeOutcome → Bool
  | .ok _ _ => true
  | .err _ => false

/-- The body of the probe loop for one test case (lines 41-70): on
transport success, decode permissively, parse headers, and build the
result dict, with `'Not specified'` as the lookup default; on a transport
exception, record nothing. -/
def runProbe (test : TestCase) (outcome : ProbeOutcome) : Option Observation :=
  match outcome with
  | .ok bs t =>
    let response := pyDecodeIgnore bs
    let headers := parseHeaders response
    some ⟨test.name, t,
      dictGet headers (pstr "connection") (pstr "Not specified"),
      dictGet headers (pstr "content-length") (pstr "Not specified")⟩
  | .err _ => none

/-- The probe loop (lines 38-73): each test case is paired with its
transport outcome; successful cases append exactly one result and failed
cases are skipped while the loop continues. -/
def runProbes (cases : List TestCase) (outcomes : List ProbeOutcome) :
    List Observation :=
  (cases.zip outcomes).filterMap (fun p => runProbe p.1 p.2)

/-! ### Analyzer (`analyze_results`, lines 77-97) -/

/-- The four summary lines printed for one result (lines 82-85). -/
def summaryOf (r : Observation) : List PyStr :=
  [pstr "\nTest: " ++ r.test_name,
   pstr "Response time: " ++ pyFormat2f r.response_time ++ pstr "s",
   pstr "Connection header: " ++ r.connection,
   pstr "Content-Length header: " ++ r.content_length]

/-- The four warning lines printed when the inconsistency rule fires
(lines 93-97). -/
def warningLines (bh te : Observation) : List PyStr :=
  [pstr "\n[!] Potential header parsing inconsistency detected:",
   pstr "- Server returns \x27Connection: close\x27 with both headers",
   pstr "- Server returns \x27Connection: keep-alive\x27 with TE only",
   pstr "- Response timing differs by: " ++
     fmtAbsDiff2 bh.response_time te.response_time ++ pstr "s"]

/-- Model of `analyze_results` (lines 77-97): returns the printed summary lines,
paired with the outcome of the comparison step — `Except.error ()` models
the uncaught `StopIteration` raised by `next()` when a named result is
missing (lines 88-89), `Except.ok (some w)` a fired inconsistency warning
`w`, and `Except.ok none` a silent pass. -/
def analyze_results (results : List Observation) :
    List PyStr × Except Unit (Option (List PyStr)) :=
  ((results.map summaryOf).flatten,
    match results.find? (fun r => r.test_name = pstr "Both Headers") with
    | none => .error ()
    | some bh =>
      match results.find? (fun r => r.test_name = pstr "TE Only") with
      | none => .error ()
      | some te =>
        if pyLower bh.connection = pstr "close" ∧
            pyLower te.connection = pstr "keep-alive" then
          .ok (some (warningLines bh te))
        else .ok none)

/-- Model of `test_header_parsing` (lines 8-75) with the network abstracted as the
per-case transport outcomes: run the probe loop over the built test cases
and hand the collected results to `analyze_results`. -/
def test_header_parsing (host : PyStr) (outcomes : List ProbeOutcome) :
    List PyStr × Except Unit (Option (List PyStr)) :=
  analyze_results (runProbes (test_cases host) outcomes)

/-- Reference function for the duplicate-header contract as the spec words
it: the value of the FIRST colon-space line of `text` whose lowercased name
is `name`, or `d` when there is none. -/
def firstHeaderValue (text name d : PyStr) : PyStr :=
  ((((splitCRLF text).filterMap linePair).filter (fun p => p.1 = name)).head?).elim
    d (fun p => p.2)

/-- Reference function for the duplicate-header behaviour of the code:
the value of the LAST colon-space line of `text` whose lowercased name is
`name`, or `d` when there is none. -/
def lastHeaderValue (text name d : PyStr) : PyStr :=
  ((((splitCRLF text).filterMap linePair).filter (fun p => p.1 = name)).getLast?).elim
    d (fun p => p.2)

/-! ## Helper lemmas -/

theorem listStartsWith_append (p s : List Char) :
    listStartsWith (p ++ s) p = true := by
  induction p with
  | nil => cases s <;> rfl
  | cons c p ih => simp [listStartsWith, ih]

theorem listHasSub_of_startsWith (s p : List Char)
    (h : listStartsWith s p = true) : listHasSub s p = true := by
  cases s with
  | nil =>
    cases p with
    | nil => rfl
    | cons x xs => simp [listStartsWith] at h
  | cons a s => simp [listHasSub, h]

theorem listHasSub_append_middle (a b c : List Char) :
    listHasSub (a ++ b ++ c) b = true := by
  induction a with
  | nil =>
    simp only [List.nil_append]
    exact listHasSub_of_startsWith _ _ (listStartsWith_append b c)
  | cons x a ih =>
    simp only [List.cons_append, listHasSub, List.append_eq, ih, Bool.or_true]

theorem utf8Encode_append (a b : PyStr) :
    utf8Encode (a ++ b) = utf8Encode a ++ utf8Encode b := by
  simp [utf8Encode]

theorem filterMap_id_sublist (l : List (Option Char)) (r : Char) :
    (l.filterMap id).Sublist (l.map (fun o => o.getD r)) := by
  induction l with
  | nil => simp
  | cons o l ih =>
    cases o with
    | none => simpa [List.filterMap_cons] using ih.cons r
    | some a => simpa [List.filterMap_cons] using ih.cons₂ a

theorem splitCRLF_ne_nil (a : PyStr) : splitCRLF a ≠ [] := by
  induction a using splitCRLF.induct with
  | case1 => simp [splitCRLF]
  | case2 rest ih => simp [splitCRLF]
  | case3 c rest h hsplit ih => rw [splitCRLF.eq_3 c rest h, hsplit]; simp
  | case4 c rest h hd tl hsplit ih => rw [splitCRLF.eq_3 c rest h, hsplit]; simp

theorem splitCRLF_append (a b : PyStr) :
    splitCRLF (a ++ '\r' :: '\n' :: b) = splitCRLF a ++ splitCRLF b := by
  induction a using splitCRLF.induct with
  | case1 => simp [splitCRLF]
  | case2 rest ih =>
    simp only [List.cons_append, splitCRLF.eq_2, List.append_eq, ih]
  | case3 c rest h hsplit ih =>
    exact absurd hsplit (splitCRLF_ne_nil rest)
  | case4 c rest h hd tl hsplit ih =>
    have h' : ∀ r1 : List Char, c = '\r' → rest ++ '\r' :: '\n' :: b = '\n' :: r1 → False := by
      intro r1 hc heq
      cases rest with
      | nil => simp at heq
      | cons r0 rest' =>
        simp only [List.cons_append, List.cons.injEq] at heq
        exact h rest' hc (by rw [heq.1])
    rw [List.cons_append, splitCRLF.eq_3 c _ h', ih,
      splitCRLF.eq_3 c rest h, hsplit]
    simp

theorem find?_map_update_ne (m : List (PyStr × PyStr)) (k v k' : PyStr)
    (hne : k' ≠ k) :
    (m.map (fun p => if p.1 = k then (k, v) else p)).find? (fun p => p.1 = k') =
      m.find? (fun p => p.1 = k') := by
  induction m with
  | nil => rfl
  | cons p m ih =>
    by_cases hp : p.1 = k
    · have h1 : ¬((k, v).1 = k') := fun h => hne h.symm
      have h2 : ¬(p.1 = k') := by rw [hp]; exact fun h => hne h.symm
      simp only [List.map_cons, if_pos hp, List.find?_cons, h1, h2, decide_False, ih]
    · simp only [List.map_cons, if_neg hp, List.find?_cons, ih]

theorem find?_map_update_hit (m : List (PyStr × PyStr)) (k v : PyStr)
    (h : m.any (fun p => p.1 = k) = true) :
    (m.map (fun p => if p.1 = k then (k, v) else p)).find? (fun p => p.1 = k) =
      some (k, v) := by
  induction m with
  | nil => simp at h
  | cons p m ih =>
    by_cases hp : p.1 = k
    · simp [hp]
    · simp only [List.any_cons, hp, decide_False, Bool.false_or] at h
      simp [hp, List.find?_cons, ih h]

theorem find?_eq_none_of_not_any (m : List (PyStr × PyStr)) (k : PyStr)
    (h : ¬ m.any (fun p => p.1 = k) = true) :
    m.find? (fun p => p.1 = k) = none := by
  induction m with
  | nil => rfl
  | cons p m ih =>
    simp only [List.any_cons, Bool.or_eq_true, decide_eq_true_eq] at h
    push_neg at h
    simp only [List.find?_cons, h.1, decide_False]
    exact ih (by simpa using h.2)

theorem dictGet_append_single (m : List (PyStr × PyStr)) (k v k' d : PyStr) :
    dictGet (m ++ [(k, v)]) k' d = dictGet m k' (if k' = k then v else d) := by
  induction m with
  | nil =>
    by_cases hk : k' = k
    · simp [dictGet, List.find?_cons, hk]
    · have : ¬((k, v).1 = k') := fun h => hk h.symm
      simp [dictGet, List.find?_cons, this, hk]
  | cons p m ih =>
    by_cases hp : p.1 = k'
    · simp [dictGet, List.find?_cons, hp]
    · simp only [List.cons_append, dictGet, List.find?_cons, hp, decide_False]
      exact ih

theorem dictGet_dictSet (m : List (PyStr × PyStr)) (k v k' d : PyStr) :
    dictGet (dictSet m k v) k' d = if k' = k then v else dictGet m k' d := by
  unfold dictSet
  by_cases hany : m.any (fun p => p.1 = k) = true
  · rw [if_pos hany]
    by_cases hk : k' = k
    · subst hk
      simp [dictGet, find?_map_update_hit m k' v hany]
    · simp [dictGet, find?_map_update_ne m k v k' hk, hk]
  · rw [if_neg hany, dictGet_append_single]
    by_cases hk : k' = k
    · subst hk
      simp [dictGet, find?_eq_none_of_not_any m k' hany]
    · simp [hk]

theorem dictGet_foldl (L : List PyStr) (m : List (PyStr × PyStr)) (k' d : PyStr) :
    dictGet (L.foldl parseLine m) k' d =
      ((L.filterMap linePair).filter (fun p => p.1 = k')).getLast?.elim
        (dictGet m k' d) (fun p => p.2) := by
  induction L generalizing m with
  | nil => rfl
  | cons l L ih =>
    cases hl : linePair l with
    | none =>
      simp only [List.foldl_cons, List.filterMap_cons, hl]
      have : parseLine m l = m := by simp [parseLine, hl]
      rw [this, ih]
    | some p =>
      obtain ⟨k, v⟩ := p
      have hstep : parseLine m l = dictSet m k v := by simp [parseLine, hl]
      simp only [List.foldl_cons, List.filterMap_cons, hl, hstep]
      rw [ih]
      by_cases hk : k = k'
      · simp only [List.filter_cons, hk, decide_True, if_true]
        cases hfr : (L.filterMap linePair).filter (fun p => p.1 = k') with
        | nil => simp [dictGet_dictSet, hk]
        | cons q qs =>
          cases hql : (q :: qs).getLast? with
          | none => simp [List.getLast?_eq_none_iff] at hql
          | some z => simp [hql]
      · have hkv : ¬((k, v).1 = k') := hk
        simp only [List.filter_cons, hkv, decide_False, if_false]
        cases hfr : (L.filterMap linePair).filter (fun p => p.1 = k') with
        | nil =>
          have hk' : ¬ k' = k := fun h => hk h.symm
          simp [dictGet_dictSet, hk']
        | cons q qs =>
          cases hql : (q :: qs).getLast? with
          | none => simp [List.getLast?_eq_none_iff] at hql
          | some z => simp [hql]

theorem listStartsWith_nil (s : List Char) : listStartsWith s [] = true := by
  cases s <;> rfl

theorem pstr_colon_space : pstr ": " = [':', ' '] := rfl

theorem splitColonSpace_sound :
    ∀ (line k v : PyStr), splitColonSpaceOnce line = some (k, v) →
      line = k ++ ':' :: ' ' :: v ∧ listHasSub k (pstr ": ") = false := by
  intro line
  induction line using splitColonSpaceOnce.induct with
  | case1 => intro k v h; simp [splitColonSpaceOnce] at h
  | case2 rest =>
    intro k v h
    simp only [splitColonSpaceOnce, Option.some.injEq, Prod.mk.injEq] at h
    obtain ⟨hk, hv⟩ := h
    subst hk; subst hv
    exact ⟨rfl, rfl⟩
  | case3 c rest hpat ih =>
    intro k v h
    rw [splitColonSpaceOnce.eq_3 c rest hpat] at h
    cases hr : splitColonSpaceOnce rest with
    | none => rw [hr] at h; simp at h
    | some p =>
      obtain ⟨k', v'⟩ := p
      rw [hr] at h
      simp only [Option.map_some', Option.some.injEq, Prod.mk.injEq] at h
      obtain ⟨hk, hv⟩ := h
      obtain ⟨hline, hsub⟩ := ih k' v' hr
      subst hline
      subst hk
      subst hv
      refine ⟨rfl, ?_⟩
      rw [pstr_colon_space] at hsub ⊢
      have hsw : listStartsWith (c :: k') [':', ' '] = false := by
        cases k' with
        | nil => simp [listStartsWith]
        | cons x k'' =>
          by_cases hc : c = ':'
          · by_cases hx : x = ' '
            · exact (hpat (k'' ++ ':' :: ' ' :: v') hc (by subst hx; rfl)).elim
            · simp [listStartsWith, hx]
          · simp [listStartsWith, hc]
      show (listStartsWith (c :: k') [':', ' '] || listHasSub k' [':', ' ']) = false
      rw [hsw, hsub]
      rfl

theorem splitColonSpace_complete :
    ∀ (k line v : PyStr), line = k ++ ':' :: ' ' :: v →
      listHasSub k (pstr ": ") = false →
      splitColonSpaceOnce line = some (k, v) := by
  intro k
  induction k with
  | nil =>
    intro line v hline _
    subst hline
    rfl
  | cons c k ih =>
    intro line v hline hsub
    subst hline
    rw [pstr_colon_space] at hsub
    have hsplit : (listStartsWith (c :: k) [':', ' '] || listHasSub k [':', ' ']) = false :=
      hsub
    have hparts := Bool.or_eq_false_iff.mp hsplit
    have hsub' : listHasSub k (pstr ": ") = false := by
      rw [pstr_colon_space]; exact hparts.2
    have hpat : ∀ r1 : List Char, c = ':' → k ++ ':' :: ' ' :: v = ' ' :: r1 → False := by
      intro r1 hc heq
      cases k with
      | nil => simp at heq
      | cons x k' =>
        simp only [List.cons_append, List.cons.injEq] at heq
        have hx : x = ' ' := heq.1
        have hbool : (decide (c = ':') && (decide (x = ' ') && listStartsWith k' [])) =
            false := hparts.1
        rw [listStartsWith_nil] at hbool
        simp [hc, hx] at hbool
    rw [List.cons_append, splitColonSpaceOnce.eq_3 c _ hpat, ih _ v rfl hsub']
    rfl

theorem foldl_parseLine_id (L : List PyStr) (m : List (PyStr × PyStr))
    (h : ∀ l ∈ L, linePair l = none) : L.foldl parseLine m = m := by
  induction L generalizing m with
  | nil => rfl
  | cons l L ih =>
    have hl : linePair l = none := h l (List.mem_cons_self l L)
    have : parseLine m l = m := by simp [parseLine, hl]
    simp only [List.foldl_cons, this]
    exact ih m (fun x hx => h x (List.mem_cons_of_mem l hx))

/-! ## Claims -/

/-- C1: the claim states that when either named Observation is absent the
analyzer skips the inconsistency check, prints the available summaries and
raises no exception.  The code instead calls `next(...)` with no default
(lines 88-89 of `http_smuggle.py`): on a results list holding only the
`"Both Headers"` observation it prints that summary and then raises an
uncaught `StopIteration`, modelled as `Except.error ()`. -/
theorem c1_missing_observation_raises :
    analyze_results [⟨pstr "Both Headers", 1, pstr "close", pstr "5"⟩] =
      (summaryOf ⟨pstr "Both Headers", 1, pstr "close", pstr "5"⟩,
        Except.error ()) := by
  decide

/-- C2 (amended): with `bh` and `te` the first results named
`"Both Headers"` and `"TE Only"`, the analyzer emits a finding iff `bh`'s
connection value lowercases to `"close"` and `te`'s lowercases to
`"keep-alive"`, and otherwise emits none; the fired warning contains the
fixed strings `"close"` and `"keep-alive"` (not the raw header values,
which appear only when already lowercase) and the absolute difference of
the two response times rendered to two decimal places. -/
theorem c2_finding_iff_and_warning_content (rs : List Observation)
    (bh te : Observation)
    (h1 : rs.find? (fun r => r.test_name = pstr "Both Headers") = some bh)
    (h2 : rs.find? (fun r => r.test_name = pstr "TE Only") = some te) :
    (analyze_results rs).2 =
      (if pyLower bh.connection = pstr "close" ∧
          pyLower te.connection = pstr "keep-alive"
        then Except.ok (some (warningLines bh te)) else Except.ok none) ∧
    (warningLines bh te).any (fun l => listHasSub l (pstr "close")) = true ∧
    (warningLines bh te).any (fun l => listHasSub l (pstr "keep-alive")) = true ∧
    (warningLines bh te).any
      (fun l => listHasSub l (fmtAbsDiff2 bh.response_time te.response_time)) =
      true := by
  refine ⟨by simp only [analyze_results, h1, h2], ?_, ?_, ?_⟩
  · have h : listHasSub
        (pstr "- Server returns \x27Connection: close\x27 with both headers")
        (pstr "close") = true := by decide
    simp [warningLines, h]
  · have h : listHasSub
        (pstr "- Server returns \x27Connection: keep-alive\x27 with TE only")
        (pstr "keep-alive") = true := by decide
    simp [warningLines, h]
  · have h := listHasSub_append_middle (pstr "- Response timing differs by: ")
      (fmtAbsDiff2 bh.response_time te.response_time) (pstr "s")
    rw [List.append_assoc] at h
    simp [warningLines, h]

/-- Witness for C2: a concrete inconsistent pair fires the warning. -/
theorem c2_finding_iff_and_warning_content_witness :
    (analyze_results
        [⟨pstr "Both Headers", 1, pstr "close", pstr "5"⟩,
         ⟨pstr "TE Only", 0, pstr "keep-alive", pstr "Not specified"⟩]).2 =
      Except.ok (some (warningLines
        ⟨pstr "Both Headers", 1, pstr "close", pstr "5"⟩
        ⟨pstr "TE Only", 0, pstr "keep-alive", pstr "Not specified"⟩)) := by
  have h := c2_finding_iff_and_warning_content
      [⟨pstr "Both Headers", 1, pstr "close", pstr "5"⟩,
       ⟨pstr "TE Only", 0, pstr "keep-alive", pstr "Not specified"⟩]
      ⟨pstr "Both Headers", 1, pstr "close", pstr "5"⟩
      ⟨pstr "TE Only", 0, pstr "keep-alive", pstr "Not specified"⟩
      (by decide) (by decide)
  rw [h.1, if_pos]
  exact ⟨by decide, by decide⟩

/-- C2 counterexample: with raw connection values `"Close"` and
`"KEEP-ALIVE"` the rule fires, but the emitted warning nowhere contains
the raw value `"Close"` — the printed text is fixed lowercase — so the
claim that the warning contains both raw connection-header values is
false. -/
theorem c2_counterexample :
    (analyze_results
        [⟨pstr "Both Headers", 1, pstr "Close", pstr "5"⟩,
         ⟨pstr "TE Only", 0, pstr "KEEP-ALIVE", pstr "Not specified"⟩]).2 =
      Except.ok (some (warningLines
        ⟨pstr "Both Headers", 1, pstr "Close", pstr "5"⟩
        ⟨pstr "TE Only", 0, pstr "KEEP-ALIVE", pstr "Not specified"⟩)) ∧
    (warningLines
        ⟨pstr "Both Headers", 1, pstr "Close", pstr "5"⟩
        ⟨pstr "TE Only", 0, pstr "KEEP-ALIVE", pstr "Not specified"⟩).any
      (fun l => listHasSub l (pstr "Close")) = false := by
  decide

/-- C3 counterexample: on the response text `"X: a\r\nX: b"` the
HeaderMap holds the LAST duplicate's value `"b"` — Python dict assignment
overwrites — not the first line's value `"a"` as the claim states. -/
theorem c3_counterexample :
    dictGet (parseHeaders (pstr "X: a\r\nX: b")) (pstr "x") (pstr "?") =
      pstr "b" ∧
    firstHeaderValue (pstr "X: a\r\nX: b") (pstr "x") (pstr "?") = pstr "a" ∧
    pstr "b" ≠ pstr "a" := by
  decide

/-- C3 (amended): for every response text, header name and default, the
HeaderMap lookup returns the value of the LAST colon-space line bearing
that lowercased name — later duplicates overwrite earlier ones. -/
theorem c3_last_duplicate_wins (text name d : PyStr) :
    dictGet (parseHeaders text) name d = lastHeaderValue text name d := by
  have h := dictGet_foldl (splitCRLF text) [] name d
  simpa [parseHeaders, lastHeaderValue, dictGet] using h

/-- C4 counterexample: the bytes `41 FF 42` decode, as the code decodes
(errors='ignore', line 52), to `"AB"`: the invalid byte is dropped, not
substituted by U+FFFD as the claim states. -/
theorem c4_counterexample :
    pyDecodeIgnore [0x41, 0xFF, 0x42] = pstr "AB" ∧
    pyDecodeIgnore [0x41, 0xFF, 0x42] ≠
      [Char.ofNat 0x41, Char.ofNat 0xFFFD, Char.ofNat 0x42] := by
  decide

/-- C4 (amended): decoding is permissive but uses errors='ignore': every
invalid maximal subpart is dropped (the ignore-decoding is a sublist of
the replace-decoding, which substitutes one U+FFFD per decoder unit), and
decoding is a total function of the byte string, never raising. -/
theorem c4_invalid_bytes_dropped :
    (∀ bs : List Nat, (pyDecodeIgnore bs).Sublist (pyDecodeReplace bs) ∧
      (pyDecodeReplace bs).length = (decodeUtf8Core bs).length) ∧
    pyDecodeIgnore [0x41, 0xFF, 0x42] = pstr "AB" :=
  ⟨fun bs => ⟨filterMap_id_sublist (decodeUtf8Core bs) (Char.ofNat 0xFFFD),
    by simp [pyDecodeReplace]⟩, by decide⟩

/-- C5: for every host the builder produces exactly the two test cases in
the fixed order `"Both Headers"`, `"TE Only"`; the encoded
`"Both Headers"` request equals the `"TE Only"` request with the single
line `Content-Length: 5\r\n` inserted between an identical prefix (status
line and Host line) and an identical suffix (Transfer-Encoding and
Connection lines, CRLF framing, body `"0\r\n\r\n"`); the builder is a
pure function, so building twice yields byte-identical sequences. -/
theorem c5_request_builder (host : PyStr) :
    (test_cases host).map TestCase.name =
      [pstr "Both Headers", pstr "TE Only"] ∧
    (∃ A B : List Nat,
      utf8Encode (bothHeadersRequest host) =
        A ++ utf8Encode (pstr "Content-Length: 5\r\n") ++ B ∧
      utf8Encode (teOnlyRequest host) = A ++ B) ∧
    (test_cases host).map (fun t => utf8Encode t.request) =
      (test_cases host).map (fun t => utf8Encode t.request) := by
  refine ⟨rfl, ⟨utf8Encode (pstr "POST / HTTP/1.1\r\n") ++
      utf8Encode (pstr "Host: " ++ host ++ pstr "\r\n"),
    utf8Encode (pstr "Transfer-Encoding: chunked\r\n") ++
      utf8Encode (pstr "Connection: keep-alive\r\n\r\n") ++
      utf8Encode (pstr "0\r\n\r\n"), ?_, ?_⟩, rfl⟩
  · simp [bothHeadersRequest, utf8Encode_append, List.append_assoc]
  · simp [teOnlyRequest, utf8Encode_append, List.append_assoc]

/-- C6: a response line contributes an entry exactly when it decomposes
as `name ++ ": " ++ value` with the separator not occurring inside
`name` — i.e. the split is at the FIRST colon-space occurrence — the
name is lowercased, lines without the separator are ignored, and on the
crafted text `"Connection: close\r\nContent-Length: 10\r\n\r\n"` the map
is exactly connection ↦ close, content-length ↦ 10. -/
theorem c6_extraction_first_occurrence :
    (∀ line k v : PyStr,
      splitColonSpaceOnce line = some (k, v) ↔
        (line = k ++ pstr ": " ++ v ∧ listHasSub k (pstr ": ") = false)) ∧
    (∀ (m : List (PyStr × PyStr)) (line : PyStr),
      splitColonSpaceOnce line = none → parseLine m line = m) ∧
    parseHeaders (pstr "Connection: close\r\nContent-Length: 10\r\n\r\n") =
      [(pstr "connection", pstr "close"), (pstr "content-length", pstr "10")] := by
  refine ⟨fun line k v => ⟨fun h => ?_, fun h => ?_⟩,
    fun m line h => by simp [parseLine, linePair, h], by decide⟩
  · obtain ⟨h1, h2⟩ := splitColonSpace_sound line k v h
    refine ⟨?_, h2⟩
    rw [pstr_colon_space, List.append_assoc]
    exact h1
  · refine splitColonSpace_complete k line v ?_ h.2
    rw [h.1, pstr_colon_space, List.append_assoc]
    simp

/-- Witness for C6: the characterization applied to a concrete line. -/
theorem c6_extraction_first_occurrence_witness :
    splitColonSpaceOnce (pstr "Connection: close") =
      some (pstr "Connection", pstr "close") :=
  (c6_extraction_first_occurrence.1 (pstr "Connection: close")
    (pstr "Connection") (pstr "close")).mpr (by decide)

/-- C7: pairing each test case with its transport outcome, the probe loop
records exactly one Observation — bearing that case's name, in order —
per case whose transport step succeeded, and zero entries for any case
whose transport step raised, while later cases are still processed. -/
theorem c7_probe_loop_invariant (cs : List TestCase)
    (os : List ProbeOutcome) :
    (runProbes cs os).length =
      ((cs.zip os).filter (fun p => p.2.isOk)).length ∧
    (runProbes cs os).map Observation.test_name =
      ((cs.zip os).filter (fun p => p.2.isOk)).map (fun p => p.1.name) := by
  suffices h : ∀ l : List (TestCase × ProbeOutcome),
      (l.filterMap (fun p => runProbe p.1 p.2)).length =
        (l.filter (fun p => p.2.isOk)).length ∧
      (l.filterMap (fun p => runProbe p.1 p.2)).map Observation.test_name =
        (l.filter (fun p => p.2.isOk)).map (fun p => p.1.name) by
    simpa [runProbes] using h (cs.zip os)
  intro l
  induction l with
  | nil => exact ⟨rfl, rfl⟩
  | cons p l ih =>
    obtain ⟨c, o⟩ := p
    cases o with
    | ok bs t =>
      have hro : runProbe c (ProbeOutcome.ok bs t) =
          some ⟨c.name, t,
            dictGet (parseHeaders (pyDecodeIgnore bs)) (pstr "connection")
              (pstr "Not specified"),
            dictGet (parseHeaders (pyDecodeIgnore bs)) (pstr "content-length")
              (pstr "Not specified")⟩ := rfl
      have hio : (ProbeOutcome.ok bs t).isOk = true := rfl
      simp only [List.filterMap_cons, List.filter_cons, hro, hio, if_true]
      simp [ih.1, ih.2]
    | err msg =>
      have hro : runProbe c (ProbeOutcome.err msg) = none := rfl
      have hio : (ProbeOutcome.err msg).isOk = false := rfl
      simp only [List.filterMap_cons, List.filter_cons, hro, hio]
      simp [ih.1, ih.2]

/-- C8: a response text with no colon-space line yields the empty map and
extraction never raises; the Observation built from such a response (here
an empty byte string) carries the sentinel `"Not specified"` for both the
connection and content-length fields, supplied by the caller's
`dict.get` default, not by the parser. -/
theorem c8_empty_extraction_sentinel :
    (∀ text : PyStr,
      (∀ line ∈ splitCRLF text, splitColonSpaceOnce line = none) →
      parseHeaders text = []) ∧
    parseHeaders [] = [] ∧
    (∀ (tc : TestCase) (t : ℚ), runProbe tc (.ok [] t) =
      some ⟨tc.name, t, pstr "Not specified", pstr "Not specified"⟩) := by
  refine ⟨fun text h => ?_, rfl, fun tc t => rfl⟩
  exact foldl_parseLine_id _ _ (fun l hl => by simp [linePair, h l hl])

/-- Witness for C8: the empty response text and a response with only a
status line both extract to the empty map, and the built Observation
carries the sentinels. -/
theorem c8_empty_extraction_sentinel_witness :
    parseHeaders (pstr "HTTP/1.1 200 OK") = [] ∧
    runProbe ⟨pstr "Both Headers", []⟩ (.ok [] 1) =
      some ⟨pstr "Both Headers", 1, pstr "Not specified",
        pstr "Not specified"⟩ :=
  ⟨c8_empty_extraction_sentinel.1 (pstr "HTTP/1.1 200 OK") (by decide),
   c8_empty_extraction_sentinel.2.2 ⟨pstr "Both Headers", []⟩ 1⟩

/-- C9: the inconsistency rule compares the stored connection values
after lowercasing only, with no whitespace trimming: whenever the pair
does not lowercase exactly to `"close"` and `"keep-alive"` — e.g. a
value `" close"` keeping the space the server sent — no finding is
emitted. -/
theorem c9_no_whitespace_trimming (rs : List Observation)
    (bh te : Observation)
    (h1 : rs.find? (fun r => r.test_name = pstr "Both Headers") = some bh)
    (h2 : rs.find? (fun r => r.test_name = pstr "TE Only") = some te)
    (h3 : ¬(pyLower bh.connection = pstr "close" ∧
        pyLower te.connection = pstr "keep-alive")) :
    (analyze_results rs).2 = Except.ok none := by
  simp only [analyze_results, h1, h2, if_neg h3]

/-- Witness for C9: a leading space in `" close"` defeats the rule. -/
theorem c9_no_whitespace_trimming_witness :
    (analyze_results
        [⟨pstr "Both Headers", 1, pstr " close", pstr "5"⟩,
         ⟨pstr "TE Only", 0, pstr "keep-alive", pstr "Not specified"⟩]).2 =
      Except.ok none :=
  c9_no_whitespace_trimming
    [⟨pstr "Both Headers", 1, pstr " close", pstr "5"⟩,
     ⟨pstr "TE Only", 0, pstr "keep-alive", pstr "Not specified"⟩]
    ⟨pstr "Both Headers", 1, pstr " close", pstr "5"⟩
    ⟨pstr "TE Only", 0, pstr "keep-alive", pstr "Not specified"⟩
    (by decide) (by decide) (by decide)

/-- C10: header extraction does not stop at the blank line: CRLF
splitting distributes over an embedded separator, the fold runs over the
body's lines as well, and a colon-space line inside the body produces a
map entry that no real header declared. -/
theorem c10_body_lines_parsed :
    (∀ a b : PyStr,
      splitCRLF (a ++ '\r' :: '\n' :: b) = splitCRLF a ++ splitCRLF b) ∧
    (∀ a b : PyStr, parseHeaders (a ++ pstr "\r\n\r\n" ++ b) =
      (splitCRLF b).foldl parseLine (parseHeaders a)) ∧
    dictGet (parseHeaders
        (pstr "HTTP/1.1 200 OK\r\nConnection: close\r\n\r\nbody-key: body-value"))
      (pstr "body-key") (pstr "Not specified") = pstr "body-value" := by
  refine ⟨splitCRLF_append, fun a b => ?_, by decide⟩
  have h1 : a ++ pstr "\r\n\r\n" ++ b =
      a ++ '\r' :: '\n' :: ('\r' :: '\n' :: b) := by
    have hps : pstr "\r\n\r\n" = ['\r', '\n', '\r', '\n'] := rfl
    rw [List.append_assoc, hps]
    simp
  show (splitCRLF (a ++ pstr "\r\n\r\n" ++ b)).foldl parseLine [] = _
  rw [h1, splitCRLF_append, splitCRLF.eq_2, List.foldl_append]
  rfl

/-- Witness for C3: the theorem applied to a concrete duplicated-header
text, with both sides evaluated. -/
theorem c3_last_duplicate_wins_witness :
    dictGet (parseHeaders (pstr "X: a\r\nY: b\r\nX: c")) (pstr "x")
      (pstr "?") = pstr "c" :=
  (c3_last_duplicate_wins (pstr "X: a\r\nY: b\r\nX: c") (pstr "x")
    (pstr "?")).trans (by decide)

/-- Witness for C4: the sublist relation at a concrete byte string. -/
theorem c4_invalid_bytes_dropped_witness :
    (pyDecodeIgnore [0x41, 0xFF]).Sublist (pyDecodeReplace [0x41, 0xFF]) :=
  (c4_invalid_bytes_dropped.1 [0x41, 0xFF]).1

/-- Witness for C5: the built case names for a concrete host. -/
theorem c5_request_builder_witness :
    (test_cases (pstr "example.com")).map TestCase.name =
      [pstr "Both Headers", pstr "TE Only"] :=
  (c5_request_builder (pstr "example.com")).1

/-- Witness for C7: a failed first case contributes nothing and the run
continues to the second case. -/
theorem c7_probe_loop_invariant_witness :
    (runProbes (test_cases (pstr "h"))
        [ProbeOutcome.err (pstr "timed out"), ProbeOutcome.ok [] 0]).map
      Observation.test_name = [pstr "TE Only"] :=
  ((c7_probe_loop_invariant (test_cases (pstr "h"))
      [ProbeOutcome.err (pstr "timed out"), ProbeOutcome.ok [] 0]).2).trans
    (by decide)

/-- Witness for C10: the CRLF-split distribution at concrete strings. -/
theorem c10_body_lines_parsed_witness :
    splitCRLF (pstr "a" ++ '\r' :: '\n' :: pstr "b") = [pstr "a", pstr "b"] :=
  (c10_body_lines_parsed.1 (pstr "a") (pstr "b")).trans (by decide)

end HttpSmuggle


